import Mathlib

/-!
Verification of the wdrmcp tool-dispatch gateway.

This file gives a shallow embedding of the Tool Dispatch Core of the
wdrmcp repository: the validation and substitution utilities
(`validateStaticSafety`, placeholder scanning and substitution, rule
checking, path normalization), the Docker execution helpers
(`validateContainer`, `resolveContainerUser`), the command executor
(`CommandToolExecutor`), the MCP proxy executor and its bound-remote
adapter, and the tool registry (`loadSingleTool`, `loadRemoteMcpTools`,
`executeTool`).

JavaScript strings are modelled through their character lists
(`String.data`); JSON-like runtime values are modelled by the mutual
inductive `JVal`/`JArr`/`JObj`.  Host primitives that the code merely
calls (the `docker`/`ssh` subprocess results, `JSON.stringify`,
`RegExp.test`, base64 encoding) are passed in as explicit oracle
functions, and the commands the executor sends to the Docker backend
are collected in an explicit trace so that "the backend is never
reached" is expressible.  Code that can throw is modelled with
`Except`; code that catches every exception is modelled as a total
function.
-/

set_option maxHeartbeats 1000000

deriving instance DecidableEq for Except

/-! ## JavaScript string primitives -/

/-- JS `s.includes(c)` for a single character `c`. -/
def strContains (s : String) (c : Char) : Bool := s.data.contains c

/-- JS `s.startsWith(p)`. -/
def strStartsWith (s p : String) : Bool := p.data.isPrefixOf s.data

/-- String concatenation, kept transparent over `String.data`. -/
def strCat (a b : String) : String := String.mk (a.data ++ b.data)

/-- JS `s.slice(n)` (from UTF-16 index `n` to the end). -/
def jsSliceFrom (s : String) (n : Nat) : String := String.mk (s.data.drop n)

/-- The whitespace characters relevant to JS `trim` in this code base. -/
def isJsSpace (c : Char) : Bool := c = ' ' || c = '\t' || c = '\n' || c = '\r'

/-- JS `s.trim()`. -/
def strTrim (s : String) : String :=
  String.mk (((s.data.dropWhile isJsSpace).reverse.dropWhile isJsSpace).reverse)

/-- JS `s.split(sep)` for a single-character separator, over char lists. -/
def splitCharList (sep : Char) : List Char → List (List Char)
  | [] => [[]]
  | c :: rest =>
    if c = sep then [] :: splitCharList sep rest
    else
      match splitCharList sep rest with
      | [] => [[c]]
      | h :: t => (c :: h) :: t

/-- JS `s.split(sep)` for a single-character separator. -/
def strSplit (s : String) (sep : Char) : List String :=
  (splitCharList sep s.data).map String.mk

/-- JS `hay.includes(sub)` (substring test), over char lists. -/
def listIncludes (sub : List Char) : List Char → Bool
  | [] => sub.isPrefixOf []
  | c :: t => sub.isPrefixOf (c :: t) || listIncludes sub t

/-- JS `s.includes(sub)` (substring test). -/
def strIncludes (s sub : String) : Bool := listIncludes sub.data s.data

/-- JS `list.join(sep)` for a list of strings. -/
def joinSep (sep : String) : List String → String
  | [] => ""
  | [x] => x
  | x :: y :: xs => x ++ sep ++ joinSep sep (y :: xs)

/-- `Map.get` over an association list (keys are unique by construction). -/
def listLookup {α : Type} : List (String × α) → String → Option α
  | [], _ => none
  | (k, v) :: rest, key => if k = key then some v else listLookup rest key

/-- `Map.set` over an association list: replace in place or append. -/
def registrySet {α : Type} : List (String × α) → String → α → List (String × α)
  | [], k, v => [(k, v)]
  | (k', v') :: rest, k, v =>
    if k' = k then (k, v) :: rest else (k', v') :: registrySet rest k v

/-- Deduplication keeping first occurrences — the observable content of
`new Set(list)` iterated in insertion order. -/
def dedupFirstAux (seen : List String) : List String → List String
  | [] => []
  | x :: xs =>
    if seen.contains x then dedupFirstAux seen xs
    else x :: dedupFirstAux (x :: seen) xs

/-- `[...new Set(list)]`. -/
def dedupFirst (l : List String) : List String := dedupFirstAux [] l

/-- JS regex `\w` (the code uses regexes without the unicode flag). -/
def isWordChar (c : Char) : Bool := c.isAlpha || c.isDigit || c = '_'

/-- Split a char list into its maximal leading `\w*` run and the rest. -/
def takeWord : List Char → List Char × List Char
  | [] => ([], [])
  | c :: rest =>
    if isWordChar c then
      match takeWord rest with
      | (w, r) => (c :: w, r)
    else ([], c :: rest)

/-- The names captured by `[...template.matchAll(/\{(\w+)\}/g)].map(m => m[1])`:
left-to-right, non-overlapping occurrences of `{word}`.

The regex resumes after the closing `}` of a match; this definition
resumes right after the opening `{` instead, which finds the same
matches because the skipped region (word characters followed by `}`)
contains no `{` and hence can start no match. -/
def scanPlaceholders : List Char → List String
  | [] => []
  | c :: rest =>
    if c = '{' then
      match takeWord rest with
      | (w, '}' :: _) =>
        if w = [] then scanPlaceholders rest
        else String.mk w :: scanPlaceholders rest
      | _ => scanPlaceholders rest
    else scanPlaceholders rest

/-! ## JSON-like runtime values -/

mutual

inductive JVal : Type where
  | str (s : String)
  | num (n : Int)
  | jbool (b : Bool)
  | jnull
  | arr (elems : JArr)
  | obj (fields : JObj)

inductive JArr : Type where
  | nil
  | cons (hd : JVal) (tl : JArr)

inductive JObj : Type where
  | nil
  | cons (key : String) (val : JVal) (tl : JObj)

end

def JObj.get? : JObj → String → Option JVal
  | .nil, _ => none
  | .cons k v t, key => if k = key then some v else JObj.get? t key

def JObj.keys : JObj → List String
  | .nil => []
  | .cons k _ t => k :: JObj.keys t

def jarrToList : JArr → List JVal
  | .nil => []
  | .cons h t => h :: jarrToList t

mutual

/-- JS `String(v)` for the values of `JVal`. -/
def JVal.jsToString : JVal → String
  | .str s => s
  | .num n => toString n
  | .jbool b => if b then "true" else "false"
  | .jnull => "null"
  | .arr xs => JArr.joinComma xs
  | .obj _ => "[object Object]"

/-- JS `Array.prototype.toString` = `join(",")`; `null` elements join
as the empty string. -/
def JArr.joinComma : JArr → String
  | .nil => ""
  | .cons h .nil =>
    (match h with
     | .jnull => ""
     | v => JVal.jsToString v)
  | .cons h (.cons h2 t) =>
    (match h with
     | .jnull => ""
     | v => JVal.jsToString v) ++ "," ++ JArr.joinComma (.cons h2 t)

end

/-- `v?.k` property access: objects look keys up, everything else
(and `undefined`, modelled by the caller as `none`) yields `undefined`. -/
def jvalProp (v : JVal) (k : String) : Option JVal :=
  match v with
  | .obj fs => JObj.get? fs k
  | _ => none

/-- `a ?? b`'s trigger: `null`/`undefined` collapse to `none`. -/
def nullish : Option JVal → Option JVal
  | some .jnull => none
  | o => o

/-! ## Placeholder substitution

`template.replace(/\{(\w+)\}/g, cb)` where the callback returns
`String(mergedArgs[key])` for a present key and throws
`Missing required argument: key` otherwise.  Unmatched text is copied;
the exception of the first failing match propagates. -/

def substAux (lookupv : String → Option JVal) : List Char → Except String (List Char)
  | [] => .ok []
  | c :: rest =>
    if c = '{' then
      match htw : takeWord rest with
      | (w, '}' :: rest2) =>
        if w = [] then
          match substAux lookupv rest with
          | .ok out => .ok (c :: out)
          | .error e => .error e
        else
          match lookupv (String.mk w) with
          | some v =>
            match substAux lookupv rest2 with
            | .ok out => .ok ((JVal.jsToString v).data ++ out)
            | .error e => .error e
          | none => .error ("Missing required argument: " ++ String.mk w)
      | _ =>
        match substAux lookupv rest with
        | .ok out => .ok (c :: out)
        | .error e => .error e
    else
      match substAux lookupv rest with
      | .ok out => .ok (c :: out)
      | .error e => .error e
termination_by l => l.length
decreasing_by
  · simp_wf
  · simp_wf
    have hb : ∀ l : List Char, (takeWord l).2.length ≤ l.length := by
      intro l
      induction l with
      | nil => exact Nat.le_refl _
      | cons c0 rest0 ih =>
        unfold takeWord
        by_cases h0 : isWordChar c0 = true
        · simp only [h0, if_true]
          cases htw0 : takeWord rest0 with
          | mk w0 r0 =>
            rw [htw0] at ih
            simpa using Nat.le_succ_of_le ih
        · simp [h0]
    have h := hb rest
    rw [htw] at h
    simp at h
    omega
  · simp_wf
  · simp_wf

/-- The substitution step of `CommandToolExecutor.execute`. -/
def substituteTemplate (template : String) (lookupv : String → Option JVal) :
    Except String String :=
  match substAux lookupv template.data with
  | .ok out => .ok (String.mk out)
  | .error e => .error e

/-! ## Docker helpers (docker.ts) -/

/-- One `dockerExec` invocation: a command run inside the container
through `docker exec [-u user] container shell -c cmd`. -/
structure ExecCall where
  container : String
  user : Option String
  shell : String
  cmd : String
deriving DecidableEq

/-- `DANGEROUS_CHARS` (the last of the printable ones is the backquote,
written as its code point). -/
def DANGEROUS_CHARS : List Char :=
  [';', '|', '&', '>', '<', '$', Char.ofNat 96, '\n', '\r']

/-- `validateStaticSafety(values)`: throws on the first (value, char)
pair, scanning values outermost. -/
def validateStaticSafety : List String → Except String Unit
  | [] => .ok ()
  | v :: rest =>
    match DANGEROUS_CHARS.find? (fun ch => strContains v ch) with
    | some ch =>
      .error ("Dangerous character \"" ++ String.mk [ch] ++ "\" in static value: \"" ++ v ++ "\"")
    | none => validateStaticSafety rest

/-- Cache key of the validated-containers cache. -/
def vKey (container ddevProject : String) : String := container ++ ":" ++ ddevProject

/-- The message of the ownership-mismatch error thrown by `validateContainer`. -/
def ownershipMismatchMsg (container label ddevProject : String) : String :=
  "Container \"" ++ container ++ "\" belongs to \"" ++ label ++ "\", not \"" ++ ddevProject ++ "\""

/-- `validateContainer(container, ddevProject)`.

`inspectRes` is the outcome of the `docker inspect` label query (on
failure it carries the rejection message, which embeds the command line
and the stderr of `docker`).  Returns the outcome, the new cache
(`validatedContainers` modelled as its key list), and whether the label
query was performed.  The `catch` block re-throws any error whose
message contains `"belongs to"` and otherwise warns and proceeds;
`validatedContainers.set` runs only when no error propagates. -/
def validateContainerM (container ddevProject : String) (validated : List String)
    (inspectRes : Except String String) : Except String Unit × List String × Bool :=
  if validated.contains (vKey container ddevProject) then (.ok (), validated, false)
  else
    match inspectRes with
    | .ok out =>
      let labelValue := strTrim out
      if ddevProject ≠ "default-project" ∧ labelValue ≠ ddevProject then
        (.error (ownershipMismatchMsg container labelValue ddevProject), validated, true)
      else (.ok (), vKey container ddevProject :: validated, true)
    | .error msg =>
      if strIncludes msg "belongs to" then (.error msg, validated, true)
      else (.ok (), vKey container ddevProject :: validated, true)

/-- The target path encoded in an `auto:uid-from-path[:path]` user string
(`parts.length > 2 ? parts[2] : "/var/www/html"`). -/
def autoUidPath (user : String) : String :=
  let parts := strSplit user ':'
  if parts.length > 2 then parts.getD 2 "" else "/var/www/html"

/-- Cache key of the UID cache. -/
def uidKey (user container : String) : String := container ++ ":" ++ autoUidPath user

/-- The `stat -c %u` probe `resolveContainerUser` runs through `dockerExec`. -/
def uidStatCall (user container : String) : ExecCall :=
  ⟨container, some "root", "/bin/sh", "stat -c %u " ++ autoUidPath user⟩

/-- `resolveContainerUser(user, container)`.

`dockerRes` is the subprocess oracle for `dockerExec`.  Returns the
resolved user, the new UID cache, and the trace of `dockerExec` calls
performed.  Every failure of the probe is caught inside, so the
function is total: it never throws. -/
def resolveContainerUserM (user container : String) (uidCache : List (String × String))
    (dockerRes : ExecCall → Except String String) :
    String × List (String × String) × List ExecCall :=
  if strStartsWith user "auto:uid-from-path" then
    let key := uidKey user container
    let cachedHit : Option String :=
      match listLookup uidCache key with
      | some c => if c = "" then none else some c
      | none => none
    match cachedHit with
    | some c => (c, uidCache, [])
    | none =>
      let call := uidStatCall user container
      match dockerRes call with
      | .ok out =>
        let uid := strTrim out
        if uid ≠ "" then (uid, (key, uid) :: uidCache, [call])
        else ("www-data", (key, "www-data") :: uidCache, [call])
      | .error _ => ("www-data", (key, "www-data") :: uidCache, [call])
  else (user, uidCache, [])

/-! ## Command executor (executors/command.ts, Docker variant) -/

/-- A validation rule from the YAML config; `message` is optional at
runtime (`rule.message ?? ...`). -/
structure VRule where
  pattern : String
  message : Option String
deriving DecidableEq

/-- `checkRules(value)`: first matching rule wins; a rule with a falsy
(empty) pattern is skipped by the `rule.pattern &&` guard.  `regexTest`
is the oracle for `new RegExp(pattern).test(value)`. -/
def checkRules (regexTest : String → String → Bool) : List VRule → String → Option String
  | [], _ => none
  | r :: rest, value =>
    if r.pattern ≠ "" ∧ regexTest r.pattern value = true then
      some (r.message.getD ("Validation failed for pattern: " ++ r.pattern))
    else checkRules regexTest rest value

/-- `ToolExecutionResult`; a JS result without the `isError` field reads
back as falsy, modelled as `false`. -/
structure ToolResult where
  content : String
  isError : Bool
deriving DecidableEq

/-- The immutable state of a constructed `CommandToolExecutor`
(constructor defaults already applied). -/
structure CmdExecOpts where
  commandTemplate : String
  container : String
  ddevProject : String
  user : String
  shell : String
  defaultArgs : List (String × String)
  disallowedCommands : List String
  validationRules : List VRule

/-- The `CommandToolExecutor` constructor: apply the option defaults and
run the static safety check on `[shell, "-c"]`; a throw aborts
construction. -/
def mkCommandToolExecutor (commandTemplate container ddevProject : String)
    (user shell : Option String) (defaultArgs : Option (List (String × String)))
    (disallowedCommands : Option (List String)) (validationRules : Option (List VRule)) :
    Except String CmdExecOpts :=
  let shellV := shell.getD "/bin/bash"
  match validateStaticSafety [shellV, "-c"] with
  | .error e => .error e
  | .ok _ =>
    .ok ⟨commandTemplate, container, ddevProject, user.getD "www-data", shellV,
      defaultArgs.getD [], disallowedCommands.getD [], validationRules.getD []⟩

/-- Lookup into `{...this.defaultArgs, ...args}` (supplied args win). -/
def mergedGet (defaultArgs : List (String × String)) (args : JObj) (k : String) :
    Option JVal :=
  match JObj.get? args k with
  | some v => some v
  | none =>
    match listLookup defaultArgs k with
    | some s => some (.str s)
    | none => none

/-- Host-side oracles for one dispatch: subprocess results and regex
evaluation. -/
structure DockerOracle where
  dockerRes : ExecCall → Except String String
  inspectRes : String → Except String String
  regexTest : String → String → Bool

/-- The two process-wide caches of docker.ts. -/
structure Caches where
  validated : List String
  uid : List (String × String)
deriving DecidableEq

/-- `dockerExec` argument assembly: `-u user` is pushed only for a
truthy user. -/
def mkExecCall (container user shell cmd : String) : ExecCall :=
  ⟨container, if user = "" then none else some user, shell, cmd⟩

/-- `CommandToolExecutor.execute` after the disallowed-command check:
substitute, check rules on the rendered command, best-effort container
validation (its error is caught and only logged, but its cache write
survives), then the real `dockerExec`. -/
def executeCmdRest (o : CmdExecOpts) (oracle : DockerOracle) (user : String)
    (validated : List String) (uid : List (String × String)) (t1 : List ExecCall)
    (args : JObj) : ToolResult × Caches × List ExecCall :=
  match substituteTemplate o.commandTemplate (mergedGet o.defaultArgs args) with
  | .error e => (⟨"Error: " ++ e, true⟩, ⟨validated, uid⟩, t1)
  | .ok cmdStr =>
    match checkRules oracle.regexTest o.validationRules cmdStr with
    | some m => (⟨"Validation error: " ++ m, true⟩, ⟨validated, uid⟩, t1)
    | none =>
      let vres := validateContainerM o.container o.ddevProject validated
        (oracle.inspectRes o.container)
      let call := mkExecCall o.container user o.shell cmdStr
      match oracle.dockerRes call with
      | .ok out => (⟨strTrim out, false⟩, ⟨vres.2.1, uid⟩, t1 ++ [call])
      | .error e => (⟨"Execution failed: " ++ e, true⟩, ⟨vres.2.1, uid⟩, t1 ++ [call])

/-- `CommandToolExecutor.execute(args)`: resolve the user (possibly
probing the container), merge defaults under the supplied args, reject
a disallowed `command` argument, then continue with
`executeCmdRest`.  Total: every failure ends in an error envelope.
The third component is the trace of commands executed against the
backend container via `dockerExec`. -/
def executeCmd (o : CmdExecOpts) (oracle : DockerOracle) (caches : Caches) (args : JObj) :
    ToolResult × Caches × List ExecCall :=
  match resolveContainerUserM o.user o.container caches.uid oracle.dockerRes with
  | (user, uid2, t1) =>
    match mergedGet o.defaultArgs args "command" with
    | some (.str c) =>
      if o.disallowedCommands.contains c then
        (⟨"Error: Command '" ++ c ++ "' is not allowed", true⟩, ⟨caches.validated, uid2⟩, t1)
      else executeCmdRest o oracle user caches.validated uid2 t1 args
    | _ => executeCmdRest o oracle user caches.validated uid2 t1 args

/-- `[...commandTemplate.matchAll(/\{(\w+)\}/g)]` folded through
`new Set`: the distinct placeholder names in template order. -/
def placeholderNames (template : String) : List String :=
  dedupFirst (scanPlaceholders template.data)

/-- The `missing` list of `validateArguments`: placeholders provided
neither by the default arguments nor by the supplied arguments. -/
def missingPlaceholders (template : String) (defaultArgs : List (String × String))
    (args : JObj) : List String :=
  (placeholderNames template).filter
    (fun p => !((defaultArgs.map Prod.fst ++ JObj.keys args).contains p))

/-- `CommandToolExecutor.validateArguments(args)`: rules against the
JSON-serialized arguments (`stringify` is the `JSON.stringify` oracle),
then the missing-placeholder check. -/
def validateArgumentsM (regexTest : String → String → Bool) (stringify : JObj → String)
    (rules : List VRule) (template : String) (defaultArgs : List (String × String))
    (args : JObj) : Except String Unit :=
  match checkRules regexTest rules (stringify args) with
  | some m => .error m
  | none =>
    let missing := missingPlaceholders template defaultArgs args
    if missing = [] then .ok ()
    else .error ("Missing required arguments: " ++ joinSep ", " missing)

/-! ## MCP proxy executor (executors/mcp-proxy.ts) -/

/-- The immutable state a constructed `McpProxyExecutor` holds. -/
structure ProxyState where
  serverUrl : String
  forwardArgs : Bool
  timeoutMs : Nat
  headers : List (String × String)

/-- The `McpProxyExecutor` constructor.  `base64` is the oracle for
`Buffer.from(s).toString("base64")`.  `authToken` takes precedence over
username+password; `authTokenBasic` switches it from Bearer to Basic. -/
def mkMcpProxyExecutor (base64 : String → String) (serverUrl : String)
    (forwardArgsOpt : Option Bool) (timeoutOpt : Option Nat)
    (authUsername authPassword authToken : Option String)
    (authTokenBasic : Option Bool) : ProxyState :=
  let hdrs := [("Content-Type", "application/json")]
  let userPass :=
    match authUsername, authPassword with
    | some u, some p =>
      if u ≠ "" ∧ p ≠ "" then
        registrySet hdrs "Authorization" ("Basic " ++ base64 (u ++ ":" ++ p))
      else hdrs
    | _, _ => hdrs
  let hdrs2 :=
    match authToken with
    | some tok =>
      if tok = "" then userPass
      else if authTokenBasic.getD false then
        registrySet hdrs "Authorization" ("Basic " ++ base64 tok)
      else registrySet hdrs "Authorization" ("Bearer " ++ tok)
    | none => userPass
  ⟨serverUrl, forwardArgsOpt.getD true, (timeoutOpt.getD 10) * 1000, hdrs2⟩

/-- `RemoteToolDefinition` as read off a raw `tools/list` element (the
code casts; a missing or non-string name reads back falsy). -/
structure RemoteToolM where
  name : String
  description : Option String
  inputSchema : Option JVal

/-- Read one raw remote tool element into the shape the cast promises. -/
def toRemoteTool (v : JVal) : RemoteToolM :=
  { name :=
      match jvalProp v "name" with
      | some (.str s) => s
      | _ => ""
    description :=
      match jvalProp v "description" with
      | some (.str s) => some s
      | _ => none
    inputSchema := jvalProp v "inputSchema" }

/-- The response-shape handling of `fetchRemoteTools`: a bare array is
taken as-is, an object yields `r.tools ?? r.result?.tools ?? []`
(non-arrays collapse to `[]`), anything else yields `[]`. -/
def parseToolsList (result : JVal) : List RemoteToolM :=
  match result with
  | .arr xs => (jarrToList xs).map toRemoteTool
  | .obj fs =>
    let viaResult : JVal :=
      match nullish (JObj.get? fs "result") with
      | some r =>
        (match nullish (jvalProp r "tools") with
         | some t => t
         | none => .arr .nil)
      | none => .arr .nil
    let raw : JVal :=
      match nullish (JObj.get? fs "tools") with
      | some t => t
      | none => viaResult
    (match raw with
     | .arr xs => (jarrToList xs).map toRemoteTool
     | _ => [])
  | _ => []

/-- The JSON-RPC request assembled by `McpProxyExecutor.callTool`:
`method` and `params` of the payload (read back off the payload object,
so both can be absent in the forwarding fallbacks). -/
structure RpcRequest where
  method : Option JVal
  params : Option JVal

/-- The payload construction of `callTool(args, toolName?)`. -/
def buildCallPayload (forwardArgsFlag : Bool) (args : JObj) (toolName : Option String) :
    RpcRequest :=
  match toolName with
  | some n =>
    ⟨some (.str "tools/call"),
      some (.obj (.cons "name" (.str n) (.cons "arguments" (.obj args) .nil)))⟩
  | none =>
    match JObj.get? args "method" with
    | some (.str m) =>
      ⟨some (.str m),
        some (match nullish (JObj.get? args "params") with
              | some p => p
              | none => .obj .nil)⟩
    | _ =>
      let payload := if forwardArgsFlag then args else JObj.nil
      ⟨JObj.get? payload "method", JObj.get? payload "params"⟩

/-- The request a `McpProxyExecutor` issues for one `callTool`. -/
def callToolRequest (p : ProxyState) (args : JObj) (toolName : Option String) : RpcRequest :=
  buildCallPayload p.forwardArgs args toolName

/-- `BoundRemoteToolExecutor.execute(args) = proxy.callTool(args, remoteToolName)`:
the request it sends over the wire. -/
def boundExecuteRequest (p : ProxyState) (remoteToolName : String) (args : JObj) :
    RpcRequest :=
  callToolRequest p args (some remoteToolName)

/-! ## Tool registry (registry.ts) -/

/-- The executor stored for a registered tool. -/
inductive RegEntry : Type where
  | command (e : CmdExecOpts)
  | mcpProxy (p : ProxyState)
  | boundRemote (p : ProxyState) (remoteName : String)

/-- A command-type `ToolConfig` as parsed from YAML (absent optional
fields are `none`; an absent `name` or `command_template` reads back
falsy and is modelled as the empty string). -/
structure CommandToolConfigM where
  name : String
  enabled : Option Bool
  command_template : String
  container : String
  user : Option String
  shell : Option String
  default_args : Option (List (String × String))
  disallowed_commands : Option (List String)
  validation_rules : Option (List VRule)

/-- `{DDEV_PROJECT}` replacement in container names: `replaceAllAux`
replaces every occurrence of the (non-empty) pattern `p0 :: prest`. -/
def replaceAllAux (p0 : Char) (prest : List Char) (repl : List Char) :
    List Char → List Char
  | [] => []
  | c :: rest =>
    if (p0 :: prest).isPrefixOf (c :: rest) then
      repl ++ replaceAllAux p0 prest repl (rest.drop prest.length)
    else c :: replaceAllAux p0 prest repl rest
termination_by l => l.length
decreasing_by
  · simp_wf
    have := List.length_drop prest.length rest
    omega
  · simp_wf

/-- JS `s.replace(/pat/g, repl)` for a fixed non-empty literal pattern. -/
def jsReplaceAll (s pat repl : String) : String :=
  match pat.data with
  | [] => s
  | p0 :: prest => String.mk (replaceAllAux p0 prest repl.data s.data)

/-- `ToolRegistry.interpolateContainerName`. -/
def interpolateContainerName (container ddevProject : String) : String :=
  if strIncludes container "{DDEV_PROJECT}" then
    jsReplaceAll container "{DDEV_PROJECT}" ddevProject
  else container

/-- The `type === "command"` branch of `ToolRegistry.createExecutor`:
missing `command_template` or a constructor throw yield `null`. -/
def createExecutorCmd (cfg : CommandToolConfigM) (ddevProject : String) :
    Option RegEntry :=
  if cfg.command_template = "" then none
  else
    match mkCommandToolExecutor cfg.command_template
      (interpolateContainerName cfg.container ddevProject) ddevProject
      cfg.user cfg.shell cfg.default_args cfg.disallowed_commands
      cfg.validation_rules with
    | .ok e => some (.command e)
    | .error _ => none

/-- `ToolRegistry.loadSingleTool` for a command-type definition: skip on
a missing name or `enabled: false`, skip (count 0) when the executor
cannot be created, otherwise register. -/
def loadSingleToolCmd (tools : List (String × RegEntry)) (cfg : CommandToolConfigM)
    (ddevProject : String) : List (String × RegEntry) × Nat :=
  if cfg.name = "" then (tools, 0)
  else if cfg.enabled = some false then (tools, 0)
  else
    match createExecutorCmd cfg ddevProject with
    | none => (tools, 0)
    | some e => (registrySet tools cfg.name e, 1)

/-- The registration loop of `loadRemoteMcpTools`: skip remote tools
with a falsy name, apply the prefix when it is truthy, and register a
`BoundRemoteToolExecutor` per remote tool. -/
def loadRemoteLoop (prefixStr : String) (proxy : ProxyState) :
    List (String × RegEntry) → List RemoteToolM → List (String × RegEntry) × Nat
  | tools, [] => (tools, 0)
  | tools, r :: rest =>
    if r.name = "" then loadRemoteLoop prefixStr proxy tools rest
    else
      let localName := if prefixStr ≠ "" then prefixStr ++ r.name else r.name
      match loadRemoteLoop prefixStr proxy
        (registrySet tools localName (.boundRemote proxy r.name)) rest with
      | (tools2, n) => (tools2, n + 1)

/-- `ToolRegistry.loadRemoteMcpTools` once the remote list has been
fetched and parsed (`toolPfx` models the `tool_prefix` config field,
defaulted to the empty string). -/
def loadRemoteMcpToolsM (tools : List (String × RegEntry)) (toolPfx : Option String)
    (proxy : ProxyState) (remoteTools : List RemoteToolM) :
    List (String × RegEntry) × Nat :=
  loadRemoteLoop (toolPfx.getD "") proxy tools remoteTools

/-- What `executeTool` needs of a registered executor: both entry
points may throw, which the registry catches. -/
structure ToolHandlers where
  validate : JObj → Except String Unit
  execute : JObj → Except String ToolResult

/-- `ToolRegistry.executeTool(name, args)`: unknown-tool envelope,
validation errors wrapped, the preprocessor applied to validated args,
execution errors wrapped.  Total — no branch can throw. -/
def executeToolM (tools : List (String × ToolHandlers)) (pre : JObj → JObj)
    (name : String) (args : JObj) : ToolResult :=
  match listLookup tools name with
  | none => ⟨"Error: Unknown tool '" ++ name ++ "'", true⟩
  | some h =>
    match h.validate args with
    | .error e => ⟨"Validation error: " ++ e, true⟩
    | .ok _ =>
      match h.execute (pre args) with
      | .ok r => r
      | .error e => ⟨"Error: " ++ e, true⟩

/-! ## Path normalization (`ToolRegistry.normalizePaths`) -/

mutual

/-- The inner `normalize` closure: rewrite strings that start with
`hostRoot + "/"`, recurse through arrays and objects, pass everything
else through. -/
def normVal (hostRoot containerRoot : String) : JVal → JVal
  | .str s =>
    if strStartsWith s (strCat hostRoot "/") then
      .str (strCat containerRoot (jsSliceFrom s hostRoot.data.length))
    else .str s
  | .num n => .num n
  | .jbool b => .jbool b
  | .jnull => .jnull
  | .arr xs => .arr (normArr hostRoot containerRoot xs)
  | .obj fs => .obj (normObj hostRoot containerRoot fs)

def normArr (hostRoot containerRoot : String) : JArr → JArr
  | .nil => .nil
  | .cons h t => .cons (normVal hostRoot containerRoot h) (normArr hostRoot containerRoot t)

def normObj (hostRoot containerRoot : String) : JObj → JObj
  | .nil => .nil
  | .cons k v t => .cons k (normVal hostRoot containerRoot v) (normObj hostRoot containerRoot t)

end

/-- `ToolRegistry.normalizePaths(value, hostRoot, containerRoot)`
(the argument is always a record). -/
def normalizePaths (value : JObj) (hostRoot containerRoot : String) : JObj :=
  normObj hostRoot containerRoot value

/-- Projection used to compare normalization results on string leaves. -/
def JVal.strVal? : JVal → Option String
  | .str s => some s
  | _ => none

/-! ## Helper lemmas -/

theorem validateStaticSafety_error_iff (vals : List String) :
    (∃ e, validateStaticSafety vals = .error e) ↔
    ∃ v ∈ vals, ∃ ch ∈ DANGEROUS_CHARS, strContains v ch = true := by
  induction vals with
  | nil => simp [validateStaticSafety]
  | cons v rest ih =>
    unfold validateStaticSafety
    cases hf : DANGEROUS_CHARS.find? (fun ch => strContains v ch) with
    | some ch =>
      simp only [hf]
      constructor
      · intro _
        exact ⟨v, by simp, ch, List.mem_of_find?_eq_some hf, List.find?_some hf⟩
      · intro _
        exact ⟨_, rfl⟩
    | none =>
      simp only [hf]
      rw [ih]
      have hnone := List.find?_eq_none.mp hf
      constructor
      · rintro ⟨w, hw, hch⟩
        exact ⟨w, List.mem_cons_of_mem _ hw, hch⟩
      · rintro ⟨w, hw, ch, hch, hc⟩
        rcases List.mem_cons.mp hw with rfl | hw'
        · exact absurd hc (by simpa using hnone ch hch)
        · exact ⟨w, hw', ch, hch, hc⟩

theorem validateStaticSafety_ok (vals : List String)
    (h : ∀ v ∈ vals, ∀ ch ∈ DANGEROUS_CHARS, strContains v ch = false) :
    validateStaticSafety vals = .ok () := by
  induction vals with
  | nil => rfl
  | cons v rest ih =>
    unfold validateStaticSafety
    have hf : DANGEROUS_CHARS.find? (fun ch => strContains v ch) = none := by
      rw [List.find?_eq_none]
      intro ch hch
      simp [h v (by simp) ch hch]
    rw [hf]
    exact ih (fun w hw ch hch => h w (List.mem_cons_of_mem _ hw) ch hch)

theorem contains_iff_mem (l : List String) (p : String) : l.contains p = true ↔ p ∈ l :=
  List.elem_iff

theorem contains_eq_false_iff (l : List String) (p : String) :
    l.contains p = false ↔ p ∉ l := by
  rw [← contains_iff_mem]
  cases l.contains p <;> simp

theorem dedupFirstAux_mem (l : List String) : ∀ (seen : List String) (p : String),
    p ∈ dedupFirstAux seen l ↔ p ∈ l ∧ p ∉ seen := by
  induction l with
  | nil => intro seen p; simp [dedupFirstAux]
  | cons x xs ih =>
    intro seen p
    unfold dedupFirstAux
    by_cases hx : seen.contains x = true
    · have hxm : x ∈ seen := List.elem_iff.mp hx
      rw [if_pos hx, ih]
      constructor
      · rintro ⟨h1, h2⟩
        exact ⟨List.mem_cons_of_mem _ h1, h2⟩
      · rintro ⟨h1, h2⟩
        rcases List.mem_cons.mp h1 with rfl | h1'
        · exact absurd hxm h2
        · exact ⟨h1', h2⟩
    · have hxm : x ∉ seen := fun hm => hx (List.elem_iff.mpr hm)
      rw [if_neg hx]
      simp only [List.mem_cons, ih]
      constructor
      · rintro (rfl | ⟨h1, h2⟩)
        · exact ⟨Or.inl rfl, hxm⟩
        · exact ⟨Or.inr h1, fun hm => h2 (Or.inr hm)⟩
      · rintro ⟨rfl | h1, h2⟩
        · exact Or.inl rfl
        · by_cases hpx : p = x
          · exact Or.inl hpx
          · exact Or.inr ⟨h1, fun hor => hor.elim hpx h2⟩

theorem dedupFirst_mem (l : List String) (p : String) : p ∈ dedupFirst l ↔ p ∈ l := by
  unfold dedupFirst
  rw [dedupFirstAux_mem]
  simp

theorem missingPlaceholders_mem (template : String) (defaults : List (String × String))
    (args : JObj) (p : String) :
    p ∈ missingPlaceholders template defaults args ↔
    (p ∈ scanPlaceholders template.data ∧ p ∉ defaults.map Prod.fst ∧ p ∉ JObj.keys args) := by
  unfold missingPlaceholders placeholderNames
  rw [List.mem_filter, dedupFirst_mem]
  constructor
  · rintro ⟨h1, h2⟩
    simp only [Bool.not_eq_true'] at h2
    have hnm := (contains_eq_false_iff _ _).mp h2
    rw [List.mem_append] at hnm
    exact ⟨h1, fun hd => hnm (Or.inl hd), fun ha => hnm (Or.inr ha)⟩
  · rintro ⟨h1, h2, h3⟩
    refine ⟨h1, ?_⟩
    simp only [Bool.not_eq_true']
    rw [contains_eq_false_iff, List.mem_append]
    rintro (h | h)
    · exact h2 h
    · exact h3 h

/-! ## Claim theorems -/

/-- C1: for every tool name and argument mapping, `executeTool` returns a
`{content, isError}` envelope and never throws (it is a total function
into `ToolResult`: every throwing sub-call is an `Except` that the
registry matches on); in particular, on a registry with no tool named
"nope", `executeTool("nope", args)` returns exactly
`{content: "Error: Unknown tool 'nope'", isError: true}`. -/
theorem executeTool_envelope_and_unknown :
    (∀ (tools : List (String × ToolHandlers)) (pre : JObj → JObj) (name : String)
      (args : JObj), ∃ r : ToolResult, executeToolM tools pre name args = r)
    ∧ (∀ (tools : List (String × ToolHandlers)) (pre : JObj → JObj) (args : JObj),
      listLookup tools "nope" = none →
      executeToolM tools pre "nope" args = ⟨"Error: Unknown tool 'nope'", true⟩) := by
  constructor
  · intro tools pre name args
    exact ⟨_, rfl⟩
  · intro tools pre args h
    unfold executeToolM
    rw [h]
    rfl

/-- Witness for C1 at the empty registry. -/
theorem executeTool_envelope_and_unknown_witness :
    listLookup ([] : List (String × ToolHandlers)) "nope" = none ∧
    executeToolM [] (fun a => a) "nope" JObj.nil = ⟨"Error: Unknown tool 'nope'", true⟩ :=
  ⟨rfl, executeTool_envelope_and_unknown.2 [] (fun a => a) JObj.nil rfl⟩

/-- C9 (amended): rule checking is first-match-wins for rules whose
pattern is truthy: if the first rule's pattern is non-empty and matches
the value, `checkRules` returns its message and the rules after it are
never evaluated (the result does not depend on the tail).  The
amendment: a rule whose pattern is the empty string is skipped by the
`rule.pattern &&` truthiness guard even though the empty regex matches
every value. -/
theorem checkRules_first_match_wins (regexTest : String → String → Bool)
    (patA m1 value : String) (hA : patA ≠ "") (hm : regexTest patA value = true) :
    ∀ tail : List VRule, checkRules regexTest (⟨patA, some m1⟩ :: tail) value = some m1 := by
  intro tail
  unfold checkRules
  simp [hA, hm, Option.getD]

/-- Witness for C9's amended theorem. -/
theorem checkRules_first_match_wins_witness :
    ("a" ≠ "" ∧ (fun (p : String) (_ : String) => p == "a") "a" "a" = true) ∧
    checkRules (fun (p : String) (_ : String) => p == "a")
      [⟨"a", some "m1"⟩, ⟨"b", some "m2"⟩] "a" = some "m1" :=
  ⟨⟨by decide, by decide⟩,
    checkRules_first_match_wins (fun (p : String) (_ : String) => p == "a") "a" "m1" "a"
      (by decide) (by decide) [⟨"b", some "m2"⟩]⟩

/-- C9 counterexample: with the always-true regex oracle (the JS
semantics of `new RegExp("").test(v)` and `/x/.test("x")`, so the value
matches both patterns), the rule list `[("", msg1), ("x", msg2)]`
yields `msg2`, not `msg1`: the empty first pattern is skipped by the
truthiness guard. -/
theorem checkRules_empty_pattern_cx :
    checkRules (fun (_ : String) (_ : String) => true)
      [⟨"", some "msg1"⟩, ⟨"x", some "msg2"⟩] "x" = some "msg2" ∧
    checkRules (fun (_ : String) (_ : String) => true)
      [⟨"", some "msg1"⟩, ⟨"x", some "msg2"⟩] "x" ≠ some "msg1" := by
  constructor
  · rfl
  · decide

/-- C4: a `tools/list` response `{"tools":[{"name":"ping"}]}` with
configured prefix "remote_" parses to the single remote tool "ping",
registers exactly one local tool named "remote_ping" bound to remote
name "ping", and for every argument mapping the bound dispatch issues
a `tools/call` request with params `{"name": "ping", "arguments": args}`. -/
theorem remote_discovery_prefix_and_dispatch :
    parseToolsList (JVal.obj (.cons "tools"
        (.arr (.cons (.obj (.cons "name" (.str "ping") .nil)) .nil)) .nil))
      = [⟨"ping", none, none⟩]
    ∧ (∀ p : ProxyState,
        loadRemoteMcpToolsM [] (some "remote_") p [⟨"ping", none, none⟩]
          = ([("remote_ping", RegEntry.boundRemote p "ping")], 1))
    ∧ (∀ (p : ProxyState) (args : JObj),
        boundExecuteRequest p "ping" args
          = ⟨some (.str "tools/call"),
             some (.obj (.cons "name" (.str "ping")
               (.cons "arguments" (.obj args) .nil)))⟩) := by
  refine ⟨rfl, fun p => rfl, fun p args => rfl⟩

/-- C7: `resolveContainerUser` never throws (it is total); a user string
not beginning with the sentinel is returned unchanged with no backend
probe; for a sentinel user on a cache miss, a failed or empty `stat`
probe caches and returns the fixed fallback "www-data", and a
successful probe caches and returns the trimmed UID. -/
theorem resolveContainerUser_spec (user container : String)
    (cache : List (String × String)) (dockerRes : ExecCall → Except String String) :
    (strStartsWith user "auto:uid-from-path" = false →
      resolveContainerUserM user container cache dockerRes = (user, cache, []))
    ∧ (∀ msg, strStartsWith user "auto:uid-from-path" = true →
        listLookup cache (uidKey user container) = none →
        dockerRes (uidStatCall user container) = .error msg →
        resolveContainerUserM user container cache dockerRes
          = ("www-data", (uidKey user container, "www-data") :: cache,
             [uidStatCall user container]))
    ∧ (∀ out, strStartsWith user "auto:uid-from-path" = true →
        listLookup cache (uidKey user container) = none →
        dockerRes (uidStatCall user container) = .ok out →
        strTrim out = "" →
        resolveContainerUserM user container cache dockerRes
          = ("www-data", (uidKey user container, "www-data") :: cache,
             [uidStatCall user container]))
    ∧ (∀ out, strStartsWith user "auto:uid-from-path" = true →
        listLookup cache (uidKey user container) = none →
        dockerRes (uidStatCall user container) = .ok out →
        strTrim out ≠ "" →
        resolveContainerUserM user container cache dockerRes
          = (strTrim out, (uidKey user container, strTrim out) :: cache,
             [uidStatCall user container])) := by
  refine ⟨?_, ?_, ?_, ?_⟩
  · intro h
    unfold resolveContainerUserM
    simp [h]
  · intro msg h1 h2 h3
    unfold resolveContainerUserM
    simp [h1, h2, h3]
  · intro out h1 h2 h3 h4
    unfold resolveContainerUserM
    simp [h1, h2, h3, h4]
  · intro out h1 h2 h3 h4
    unfold resolveContainerUserM
    simp [h1, h2, h3, h4]

/-- Witness for C7: sentinel user, empty cache, failing probe. -/
theorem resolveContainerUser_spec_witness :
    (strStartsWith "auto:uid-from-path" "auto:uid-from-path" = true
      ∧ listLookup ([] : List (String × String)) (uidKey "auto:uid-from-path" "web") = none
      ∧ (fun (_ : ExecCall) => (.error "no such container" : Except String String))
          (uidStatCall "auto:uid-from-path" "web") = .error "no such container")
    ∧ resolveContainerUserM "auto:uid-from-path" "web" []
        (fun _ => .error "no such container")
      = ("www-data", (uidKey "auto:uid-from-path" "web", "www-data") :: [],
         [uidStatCall "auto:uid-from-path" "web"]) :=
  ⟨⟨by decide, rfl, rfl⟩,
    (resolveContainerUser_spec "auto:uid-from-path" "web" []
      (fun _ => .error "no such container")).2.1 "no such container"
      (by decide) rfl rfl⟩

/-- C10 (implicit): the ownership-validation cache is untouched whenever
`validateContainer` fails (the `set` runs only after the check passed or
the query failure was soft-skipped); a passing call leaves the key
cached; a cached key returns immediately, `ok`, without querying; and
an uncached key always queries. -/
theorem validateContainer_cache_discipline (container project : String)
    (cache : List String) (q : Except String String) :
    ((∃ e, (validateContainerM container project cache q).1 = .error e) →
      (validateContainerM container project cache q).2.1 = cache)
    ∧ ((validateContainerM container project cache q).1 = .ok () →
      (validateContainerM container project cache q).2.1.contains (vKey container project) = true)
    ∧ (cache.contains (vKey container project) = true →
      validateContainerM container project cache q = (.ok (), cache, false))
    ∧ (cache.contains (vKey container project) = false →
      (validateContainerM container project cache q).2.2 = true) := by
  by_cases hc : vKey container project ∈ cache
  · have hcb : cache.contains (vKey container project) = true := List.elem_iff.mpr hc
    refine ⟨?_, ?_, ?_, ?_⟩
    · rintro ⟨e, he⟩
      simp [validateContainerM, hc] at he
    · intro _
      simp [validateContainerM, hc]
    · intro _
      simp [validateContainerM, hc]
    · intro hfc
      rw [hcb] at hfc
      exact absurd hfc (by simp)
  · cases q with
    | ok out =>
      by_cases hm : project ≠ "default-project" ∧ strTrim out ≠ project
      · refine ⟨?_, ?_, ?_, ?_⟩
        · intro _
          simp [validateContainerM, hc, hm]
        · intro hok
          simp [validateContainerM, hc, hm] at hok
        · intro h
          exact absurd (List.elem_iff.mp h) hc
        · intro _
          simp [validateContainerM, hc, hm]
      · refine ⟨?_, ?_, ?_, ?_⟩
        · rintro ⟨e, he⟩
          simp [validateContainerM, hc, hm] at he
        · intro _
          simp [validateContainerM, hc, hm]
        · intro h
          exact absurd (List.elem_iff.mp h) hc
        · intro _
          simp [validateContainerM, hc, hm]
    | error msg =>
      by_cases hm : strIncludes msg "belongs to" = true
      · refine ⟨?_, ?_, ?_, ?_⟩
        · intro _
          simp [validateContainerM, hc, hm]
        · intro hok
          simp [validateContainerM, hc, hm] at hok
        · intro h
          exact absurd (List.elem_iff.mp h) hc
        · intro _
          simp [validateContainerM, hc, hm]
      · refine ⟨?_, ?_, ?_, ?_⟩
        · rintro ⟨e, he⟩
          simp [validateContainerM, hc, hm] at he
        · intro _
          simp [validateContainerM, hc, hm]
        · intro h
          exact absurd (List.elem_iff.mp h) hc
        · intro _
          simp [validateContainerM, hc, hm]

/-- Witness for C10 at a concrete mismatch: expected project "siteB",
declared label "siteA", empty cache — the result is an error and the
cache stays empty. -/
theorem validateContainer_cache_discipline_witness :
    (∃ e, (validateContainerM "web" "siteB" [] (.ok "siteA")).1 = .error e) ∧
    (validateContainerM "web" "siteB" [] (.ok "siteA")).2.1 = [] :=
  ⟨⟨ownershipMismatchMsg "web" "siteA" "siteB", by decide⟩,
    (validateContainer_cache_discipline "web" "siteB" [] (.ok "siteA")).1
      ⟨ownershipMismatchMsg "web" "siteA" "siteB", by decide⟩⟩

/-- C6 (amended): with the wildcard expected project "default-project"
a successful label query never fails, whatever the declared label; with
any other expected project, an uncached call whose declared (trimmed)
label differs fails with the ownership-mismatch error; a label query
failure whose message does not contain "belongs to" is soft-skipped
(warn and proceed).  The amendment: the `catch` block re-throws any
query error whose message contains the substring "belongs to" (the
marker it uses to recognize its own mismatch error), so a query failure
is only guaranteed to be soft-skipped when its message lacks that
substring; and the mismatch failure is only guaranteed on a cache miss,
since a cached (container, project) key returns early. -/
theorem validateContainer_ownership (container project label msg : String)
    (cache : List String) :
    ((validateContainerM container "default-project" cache (.ok label)).1 = .ok ())
    ∧ (project ≠ "default-project" → strTrim label ≠ project →
        cache.contains (vKey container project) = false →
        (validateContainerM container project cache (.ok label)).1
          = .error (ownershipMismatchMsg container (strTrim label) project))
    ∧ (strIncludes msg "belongs to" = false →
        (validateContainerM container project cache (.error msg)).1 = .ok ()) := by
  refine ⟨?_, ?_, ?_⟩
  · by_cases hc : vKey container "default-project" ∈ cache
    · simp [validateContainerM, hc]
    · simp [validateContainerM, hc]
  · intro h1 h2 hc
    have hcm : vKey container project ∉ cache := (contains_eq_false_iff _ _).mp hc
    simp [validateContainerM, hcm, h1, h2]
  · intro hm
    by_cases hc : vKey container project ∈ cache
    · simp [validateContainerM, hc]
    · simp [validateContainerM, hc, hm]

/-- Witness for C6's amended theorem: mismatch case and soft-skip case
at concrete inputs. -/
theorem validateContainer_ownership_witness :
    ("siteB" ≠ "default-project" ∧ strTrim "siteA" ≠ "siteB"
      ∧ ([] : List String).contains (vKey "web" "siteB") = false
      ∧ strIncludes "Error: No such object: web" "belongs to" = false)
    ∧ (validateContainerM "web" "siteB" [] (.ok "siteA")).1
        = .error (ownershipMismatchMsg "web" "siteA" "siteB")
    ∧ (validateContainerM "web" "siteB" [] (.error "Error: No such object: web")).1
        = .ok () := by
  refine ⟨⟨by decide, by decide, by decide, by decide⟩, ?_, ?_⟩
  · have h := (validateContainer_ownership "web" "siteB" "siteA" "x" []).2.1
      (by decide) (by decide) (by decide)
    rw [h]
    decide
  · exact (validateContainer_ownership "web" "siteB" "x"
      "Error: No such object: web" []).2.2 (by decide)

/-- C6 counterexample: a label query failure whose message contains
"belongs to" (for example `docker inspect` failing on a container whose
name embeds that phrase, the message carrying the command line and
stderr) is re-thrown by `validateContainer` instead of being warned and
soft-skipped — the claim's "if the label query itself fails, it warns
and proceeds without failing" is false at this input. -/
theorem validateContainer_query_failure_cx :
    (validateContainerM "web" "default-project" []
      (.error "Command failed: docker inspect web-belongs to-x\nError: No such object")).1
      ≠ .ok () := by
  decide

/-- C2: for a command-type tool definition whose static shell value
(after the constructor default `/bin/bash`) or the fixed "-c" flag
contains a dangerous character, `validateStaticSafety` throws, the
executor is not created, and the registry registers zero tools for the
definition; when neither static value contains a dangerous character,
the safety check passes. -/
theorem static_safety_gate (cfg : CommandToolConfigM) (ddevProject : String) :
    ((∃ ch ∈ DANGEROUS_CHARS,
        strContains (cfg.shell.getD "/bin/bash") ch = true ∨ strContains "-c" ch = true) →
      (∃ e, validateStaticSafety [cfg.shell.getD "/bin/bash", "-c"] = .error e)
      ∧ createExecutorCmd cfg ddevProject = none
      ∧ ∀ tools, loadSingleToolCmd tools cfg ddevProject = (tools, 0))
    ∧ ((∀ ch ∈ DANGEROUS_CHARS,
        strContains (cfg.shell.getD "/bin/bash") ch = false ∧ strContains "-c" ch = false) →
      validateStaticSafety [cfg.shell.getD "/bin/bash", "-c"] = .ok ()) := by
  constructor
  · rintro ⟨ch, hch, hc⟩
    have herr : ∃ e, validateStaticSafety [cfg.shell.getD "/bin/bash", "-c"] = .error e := by
      rw [validateStaticSafety_error_iff]
      rcases hc with hc | hc
      · exact ⟨cfg.shell.getD "/bin/bash", by simp, ch, hch, hc⟩
      · exact ⟨"-c", by simp, ch, hch, hc⟩
    obtain ⟨e, he⟩ := herr
    have hnone : createExecutorCmd cfg ddevProject = none := by
      unfold createExecutorCmd mkCommandToolExecutor
      by_cases ht : cfg.command_template = ""
      · simp [ht]
      · simp only [ht, if_false]
        rw [he]
    refine ⟨⟨e, he⟩, hnone, ?_⟩
    intro tools
    unfold loadSingleToolCmd
    by_cases h1 : cfg.name = ""
    · simp [h1]
    · by_cases h2 : cfg.enabled = some false
      · simp [h1, h2]
      · simp [h1, h2, hnone]
  · intro hsafe
    apply validateStaticSafety_ok
    intro v hv ch hch
    rcases List.mem_cons.mp hv with rfl | hv'
    · exact (hsafe ch hch).1
    · rcases List.mem_cons.mp hv' with rfl | hv''
      · exact (hsafe ch hch).2
      · simp at hv''

/-- Witness for C2: a shell containing `;` blocks registration; the
default shell passes the safety check. -/
theorem static_safety_gate_witness :
    (∃ ch ∈ DANGEROUS_CHARS,
      strContains (((⟨"t", none, "echo hi", "web", none, some "/bin/sh;",
        none, none, none⟩ : CommandToolConfigM)).shell.getD "/bin/bash") ch = true
      ∨ strContains "-c" ch = true)
    ∧ loadSingleToolCmd [] ⟨"t", none, "echo hi", "web", none, some "/bin/sh;",
        none, none, none⟩ "proj" = ([], 0)
    ∧ validateStaticSafety
        [(((⟨"t2", none, "echo hi", "web", none, none, none, none, none⟩ :
          CommandToolConfigM)).shell.getD "/bin/bash"), "-c"] = .ok () :=
  ⟨⟨';', by decide, Or.inl (by decide)⟩,
    ((static_safety_gate ⟨"t", none, "echo hi", "web", none, some "/bin/sh;",
        none, none, none⟩ "proj").1 ⟨';', by decide, Or.inl (by decide)⟩).2.2 [],
    (static_safety_gate ⟨"t2", none, "echo hi", "web", none, none, none, none, none⟩
        "proj").2 (by decide)⟩

/-- C3 (amended): a command executor whose `disallowed_commands` contain
"rm", invoked with argument `command = "rm"`, returns exactly the error
envelope `{content: "Error: Command 'rm' is not allowed", isError: true}`,
and the templated command is never executed against the backend: the
only backend commands of the call are those of the UID resolution that
`execute` performs before the disallowed-command check — none at all
when the configured user is not an `auto:uid-from-path` sentinel.  The
amendment: "no command is ever executed against the backend during that
call" does not hold for a sentinel user on a UID-cache miss, where
`resolveContainerUser` runs its `stat` probe in the container before
the check. -/
theorem disallowed_command_blocks (o : CmdExecOpts) (oracle : DockerOracle)
    (caches : Caches) (args : JObj)
    (hdis : o.disallowedCommands.contains "rm" = true)
    (harg : JObj.get? args "command" = some (JVal.str "rm")) :
    (executeCmd o oracle caches args).1 = ⟨"Error: Command 'rm' is not allowed", true⟩
    ∧ (executeCmd o oracle caches args).2.2
        = (resolveContainerUserM o.user o.container caches.uid oracle.dockerRes).2.2
    ∧ (strStartsWith o.user "auto:uid-from-path" = false →
        (executeCmd o oracle caches args).2.2 = []) := by
  have hmg : mergedGet o.defaultArgs args "command" = some (.str "rm") := by
    unfold mergedGet
    rw [harg]
  have hdm : "rm" ∈ o.disallowedCommands := List.elem_iff.mp hdis
  rcases hres : resolveContainerUserM o.user o.container caches.uid oracle.dockerRes
    with ⟨user, uid2, t1⟩
  refine ⟨?_, ?_, ?_⟩
  · simp [executeCmd, hres, hmg, hdm]
  · simp [executeCmd, hres, hmg, hdm]
  · intro hns
    have h0 : resolveContainerUserM o.user o.container caches.uid oracle.dockerRes
        = (o.user, caches.uid, []) := by
      unfold resolveContainerUserM
      simp [hns]
    rw [h0] at hres
    cases hres
    simp [executeCmd, h0, hmg, hdm]

/-- Witness for C3's amended theorem: a non-sentinel user produces the
error envelope with an empty backend trace. -/
theorem disallowed_command_blocks_witness :
    ((["rm"] : List String).contains "rm" = true
      ∧ JObj.get? (JObj.cons "command" (JVal.str "rm") .nil) "command"
          = some (JVal.str "rm")
      ∧ strStartsWith "www-data" "auto:uid-from-path" = false)
    ∧ (executeCmd ⟨"{command}", "web", "proj", "www-data", "/bin/bash", [], ["rm"], []⟩
        ⟨fun _ => .ok "out", fun _ => .ok "proj", fun _ _ => false⟩
        ⟨[], []⟩ (JObj.cons "command" (JVal.str "rm") .nil)).1
      = ⟨"Error: Command 'rm' is not allowed", true⟩
    ∧ (executeCmd ⟨"{command}", "web", "proj", "www-data", "/bin/bash", [], ["rm"], []⟩
        ⟨fun _ => .ok "out", fun _ => .ok "proj", fun _ _ => false⟩
        ⟨[], []⟩ (JObj.cons "command" (JVal.str "rm") .nil)).2.2 = [] :=
  ⟨⟨by decide, rfl, by decide⟩,
    (disallowed_command_blocks ⟨"{command}", "web", "proj", "www-data", "/bin/bash",
        [], ["rm"], []⟩
      ⟨fun _ => .ok "out", fun _ => .ok "proj", fun _ _ => false⟩
      ⟨[], []⟩ (JObj.cons "command" (JVal.str "rm") .nil) (by decide) rfl).1,
    (disallowed_command_blocks ⟨"{command}", "web", "proj", "www-data", "/bin/bash",
        [], ["rm"], []⟩
      ⟨fun _ => .ok "out", fun _ => .ok "proj", fun _ _ => false⟩
      ⟨[], []⟩ (JObj.cons "command" (JVal.str "rm") .nil) (by decide) rfl).2.2
      (by decide)⟩

/-- C3 counterexample: with user `auto:uid-from-path` and a cold UID
cache, the same disallowed-"rm" dispatch still returns the error
envelope but a command (the UID-resolution `stat` probe) is executed
against the backend container during the call — the claim's "the
backend is never reached" is false at this input. -/
theorem disallowed_command_backend_cx :
    (executeCmd ⟨"{command}", "web", "proj", "auto:uid-from-path", "/bin/bash", [],
        ["rm"], []⟩
      ⟨fun _ => .ok "33", fun _ => .ok "proj", fun _ _ => false⟩
      ⟨[], []⟩ (JObj.cons "command" (JVal.str "rm") .nil)).1
      = ⟨"Error: Command 'rm' is not allowed", true⟩
    ∧ (executeCmd ⟨"{command}", "web", "proj", "auto:uid-from-path", "/bin/bash", [],
        ["rm"], []⟩
      ⟨fun _ => .ok "33", fun _ => .ok "proj", fun _ _ => false⟩
      ⟨[], []⟩ (JObj.cons "command" (JVal.str "rm") .nil)).2.2 ≠ [] := by
  constructor
  · decide
  · decide

/-- C8: assuming no validation rule matches the serialized arguments,
`validateArguments` fails iff some placeholder referenced by the
command template is provided neither by the default arguments nor by
the supplied arguments, its error message is built from exactly the
missing-placeholder list, and that list holds exactly the set of
missing placeholder names. -/
theorem validateArguments_missing (rt : String → String → Bool) (stringify : JObj → String)
    (rules : List VRule) (template : String) (defaults : List (String × String))
    (args : JObj)
    (hrules : checkRules rt rules (stringify args) = none) :
    ((∃ e, validateArgumentsM rt stringify rules template defaults args = .error e) ↔
      ∃ p ∈ scanPlaceholders template.data,
        p ∉ defaults.map Prod.fst ∧ p ∉ JObj.keys args)
    ∧ (missingPlaceholders template defaults args ≠ [] →
        validateArgumentsM rt stringify rules template defaults args
          = .error ("Missing required arguments: "
              ++ joinSep ", " (missingPlaceholders template defaults args)))
    ∧ (∀ p, p ∈ missingPlaceholders template defaults args ↔
        (p ∈ scanPlaceholders template.data ∧ p ∉ defaults.map Prod.fst
          ∧ p ∉ JObj.keys args)) := by
  have hval : validateArgumentsM rt stringify rules template defaults args
      = (if missingPlaceholders template defaults args = [] then .ok ()
         else .error ("Missing required arguments: "
            ++ joinSep ", " (missingPlaceholders template defaults args))) := by
    unfold validateArgumentsM
    rw [hrules]
  refine ⟨?_, ?_, missingPlaceholders_mem template defaults args⟩
  · constructor
    · rintro ⟨e, he⟩
      rw [hval] at he
      by_cases hmp : missingPlaceholders template defaults args = []
      · rw [if_pos hmp] at he
        exact absurd he (by simp)
      · obtain ⟨p, hp⟩ := List.exists_mem_of_ne_nil _ hmp
        have hm := (missingPlaceholders_mem template defaults args p).mp hp
        exact ⟨p, hm.1, hm.2.1, hm.2.2⟩
    · rintro ⟨p, hscan, hd, ha⟩
      have hpm : p ∈ missingPlaceholders template defaults args :=
        (missingPlaceholders_mem template defaults args p).mpr ⟨hscan, hd, ha⟩
      have hmp : missingPlaceholders template defaults args ≠ [] := by
        intro h0
        rw [h0] at hpm
        exact absurd hpm (by simp)
      rw [hval, if_neg hmp]
      exact ⟨_, rfl⟩
  · intro hmp
    rw [hval, if_neg hmp]

/-- Witness for C8: template `tail -n {count} {file}` with default
`count` and no supplied arguments is missing exactly `file`. -/
theorem validateArguments_missing_witness :
    checkRules (fun (_ : String) (_ : String) => false) []
      ((fun (_ : JObj) => "serialized") JObj.nil) = none
    ∧ validateArgumentsM (fun (_ : String) (_ : String) => false)
        (fun (_ : JObj) => "serialized") [] "tail -n {count} {file}"
        [("count", "10")] JObj.nil
      = .error "Missing required arguments: file" := by
  refine ⟨rfl, ?_⟩
  have h := (validateArguments_missing (fun (_ : String) (_ : String) => false)
    (fun (_ : JObj) => "serialized") [] "tail -n {count} {file}"
    [("count", "10")] JObj.nil rfl).2.1 (by decide)
  rw [h]
  decide

theorem no_new_host_prefix {H C : List Char} (t : List Char)
    (h1 : ¬ (H ++ ['/']) <+: C) (h2 : ¬ C <+: (H ++ ['/'])) :
    ¬ (H ++ ['/']) <+: (C ++ '/' :: t) := by
  intro hpre
  rcases le_or_lt (H.length + 1) C.length with hle | hlt
  · exact h1 (List.prefix_of_prefix_length_le hpre (List.prefix_append C ('/' :: t))
      (by simpa using hle))
  · exact h2 (List.prefix_of_prefix_length_le (List.prefix_append C ('/' :: t)) hpre
      (by simp; omega))

theorem normVal_str_idem (hr cr : String)
    (h1 : (hr.data ++ ['/']).isPrefixOf cr.data = false)
    (h2 : cr.data.isPrefixOf (hr.data ++ ['/']) = false) (s : String) :
    normVal hr cr (normVal hr cr (.str s)) = normVal hr cr (.str s) := by
  have h1' : ¬ (hr.data ++ ['/']) <+: cr.data := by
    intro hp
    rw [← List.isPrefixOf_iff_prefix] at hp
    rw [h1] at hp
    exact absurd hp (by simp)
  have h2' : ¬ cr.data <+: (hr.data ++ ['/']) := by
    intro hp
    rw [← List.isPrefixOf_iff_prefix] at hp
    rw [h2] at hp
    exact absurd hp (by simp)
  cases hsp : strStartsWith s (strCat hr "/") with
  | false =>
    have e0 : normVal hr cr (.str s) = .str s := by
      unfold normVal
      rw [hsp]
      simp
    rw [e0, e0]
  | true =>
    have hpre : (hr.data ++ ['/']) <+: s.data := by
      have hb : (strCat hr "/").data.isPrefixOf s.data = true := hsp
      rw [List.isPrefixOf_iff_prefix] at hb
      exact hb
    obtain ⟨t, ht⟩ := hpre
    have hdata : s.data = hr.data ++ '/' :: t := by
      rw [← ht]
      simp
    have hdrop : s.data.drop hr.data.length = '/' :: t := by
      rw [hdata]
      exact List.drop_left hr.data ('/' :: t)
    have hout : (strCat cr (jsSliceFrom s hr.data.length)).data = cr.data ++ '/' :: t := by
      show cr.data ++ s.data.drop hr.data.length = cr.data ++ '/' :: t
      rw [hdrop]
    have hnostart : strStartsWith (strCat cr (jsSliceFrom s hr.data.length))
        (strCat hr "/") = false := by
      unfold strStartsWith
      rw [hout]
      have hnot := no_new_host_prefix t h1' h2'
      cases hb : (strCat hr "/").data.isPrefixOf (cr.data ++ '/' :: t) with
      | false => rfl
      | true =>
        rw [List.isPrefixOf_iff_prefix] at hb
        exact absurd hb hnot
    have e1 : normVal hr cr (.str s) = .str (strCat cr (jsSliceFrom s hr.data.length)) := by
      unfold normVal
      rw [hsp]
      simp
    have e2 : normVal hr cr (.str (strCat cr (jsSliceFrom s hr.data.length)))
        = .str (strCat cr (jsSliceFrom s hr.data.length)) := by
      unfold normVal
      rw [hnostart]
      simp
    rw [e1, e2]

mutual

theorem normVal_idem (hr cr : String)
    (h1 : (hr.data ++ ['/']).isPrefixOf cr.data = false)
    (h2 : cr.data.isPrefixOf (hr.data ++ ['/']) = false) :
    ∀ v : JVal, normVal hr cr (normVal hr cr v) = normVal hr cr v
  | .str s => normVal_str_idem hr cr h1 h2 s
  | .num _ => rfl
  | .jbool _ => rfl
  | .jnull => rfl
  | .arr xs => by
    simp only [normVal]
    rw [normArr_idem hr cr h1 h2 xs]
  | .obj fs => by
    simp only [normVal]
    rw [normObj_idem hr cr h1 h2 fs]

theorem normArr_idem (hr cr : String)
    (h1 : (hr.data ++ ['/']).isPrefixOf cr.data = false)
    (h2 : cr.data.isPrefixOf (hr.data ++ ['/']) = false) :
    ∀ xs : JArr, normArr hr cr (normArr hr cr xs) = normArr hr cr xs
  | .nil => rfl
  | .cons x t => by
    simp only [normArr]
    rw [normVal_idem hr cr h1 h2 x, normArr_idem hr cr h1 h2 t]

theorem normObj_idem (hr cr : String)
    (h1 : (hr.data ++ ['/']).isPrefixOf cr.data = false)
    (h2 : cr.data.isPrefixOf (hr.data ++ ['/']) = false) :
    ∀ fs : JObj, normObj hr cr (normObj hr cr fs) = normObj hr cr fs
  | .nil => rfl
  | .cons k v t => by
    simp only [normObj]
    rw [normVal_idem hr cr h1 h2 v, normObj_idem hr cr h1 h2 t]

end

/-- C5 (amended): path normalization is idempotent whenever
`hostRoot + "/"` and `containerRoot` are prefix-incomparable (neither
is a prefix of the other), which holds for the given concrete roots; a
string starting with `hostRoot` but not `hostRoot + "/"` is left
unchanged; and the two concrete examples hold as stated.  The
amendment: idempotence does not hold for every `hostRoot` and
`containerRoot` — it fails when the rewritten prefix reintroduces
`hostRoot + "/"`, e.g. hostRoot `/a`, containerRoot `/a/a`. -/
theorem normalizePaths_idem_and_examples (hostRoot containerRoot : String)
    (h1 : (hostRoot.data ++ ['/']).isPrefixOf containerRoot.data = false)
    (h2 : containerRoot.data.isPrefixOf (hostRoot.data ++ ['/']) = false) :
    (∀ v : JObj,
      normalizePaths (normalizePaths v hostRoot containerRoot) hostRoot containerRoot
        = normalizePaths v hostRoot containerRoot)
    ∧ (∀ s : String, strStartsWith s (strCat hostRoot "/") = false →
        normVal hostRoot containerRoot (.str s) = .str s)
    ∧ normalizePaths (JObj.cons "path" (JVal.str "/workspace/app/file.php") .nil)
        "/workspace" "/var/www/html"
        = JObj.cons "path" (JVal.str "/var/www/html/app/file.php") .nil
    ∧ normVal "/workspace" "/var/www/html" (JVal.str "/workspace-other/x")
        = JVal.str "/workspace-other/x" := by
  refine ⟨?_, ?_, rfl, rfl⟩
  · intro v
    exact normObj_idem hostRoot containerRoot h1 h2 v
  · intro s hs
    simp [normVal, hs]

/-- Witness for C5's amended theorem at the concrete roots of the
configuration defaults. -/
theorem normalizePaths_idem_and_examples_witness :
    (("/workspace".data ++ ['/']).isPrefixOf "/var/www/html".data = false
      ∧ "/var/www/html".data.isPrefixOf ("/workspace".data ++ ['/']) = false)
    ∧ normalizePaths (normalizePaths
        (JObj.cons "path" (JVal.str "/workspace/app/file.php") .nil)
        "/workspace" "/var/www/html") "/workspace" "/var/www/html"
      = normalizePaths (JObj.cons "path" (JVal.str "/workspace/app/file.php") .nil)
        "/workspace" "/var/www/html" :=
  ⟨⟨by decide, by decide⟩,
    (normalizePaths_idem_and_examples "/workspace" "/var/www/html"
      (by decide) (by decide)).1 _⟩

/-- C5 counterexample: with hostRoot `/a` and containerRoot `/a/a`,
normalizing `{"path": "/a/x"}` twice gives `{"path": "/a/a/a/x"}` while
normalizing once gives `{"path": "/a/a/x"}` — normalization is not
idempotent for every hostRoot and containerRoot. -/
theorem normalizePaths_not_idem_cx :
    normalizePaths (normalizePaths (JObj.cons "path" (JVal.str "/a/x") .nil) "/a" "/a/a")
        "/a" "/a/a"
      ≠ normalizePaths (JObj.cons "path" (JVal.str "/a/x") .nil) "/a" "/a/a" :=
  fun h =>
    absurd (congrArg (fun o => Option.map JVal.strVal? (JObj.get? o "path")) h)
      (by decide)
